import Mathlib

/-!
Verification development for the comfyui-rusty-nodes repository.

The development shallowly embeds the Rust sources:
  * `src/nodes/image_resizer.rs` — the batched image/mask resize node
    (`ResizeImage::execute`, `ResizeImage::resize_parallel`, `ResizeImage::resize`);
  * `src/utilities.rs` — `tensor_to_image` (tensor → 8-bit bitmap decode) and
    `image_to_tensor` (bitmap → tensor encode); the private copy of
    `tensor_to_image` in `src/nodes/image_to_base64.rs` is line-for-line the same
    pixel mapping and is covered by the same embedding;
  * `src/nodes/base64_to_image.rs` — the data-URL comma-stripping rule;
  * `src/nodes/json_path_extractor.rs` — JSON pointer extraction.

Modelling conventions:
  * `f32` values are modelled as exact rationals (`Rat`); no claim below depends
    on floating-point rounding of the resampling arithmetic itself.
  * candle tensors are modelled as a shape (list of extents) plus a flat
    row-major data buffer.  `Tensor::from_vec` succeeds exactly when the buffer
    length equals the product of the extents (candle's element-count check);
    `dims3` / `dims4` succeed exactly on rank-3 / rank-4 shapes; `t.i(b)`
    narrows and drops the leading axis.
  * the third-party `resize` crate is modelled by its contract: `resize::new`
    rejects a zero source or destination dimension (`Error::InvalidParameters`);
    `Resizer::resize` rejects a source slice holding fewer than
    `src_w * src_h` pixels (`Error::InsufficientData`); on success it fills the
    destination with `dst_w * dst_h` pixels whose numeric values are produced by
    the selected interpolation filter.  The filter arithmetic lives entirely in
    that crate, so it appears here as an explicit `Sampler` parameter; theorems
    quantify over it, hence hold for every interpolation kernel.
  * rayon's `into_par_iter().flat_map(...).collect()` is deterministic and
    order-preserving (documented rayon behaviour), so the parallel fan-out is
    embedded as the order-preserving `List.filterMap`: `flat_map` over `Result`
    keeps `Ok` payloads and silently drops `Err` ones, exactly as `filterMap`
    keeps `some` and drops `none`.
-/

/-- Errors surfaced by the embedded code paths.  `dimMismatch` is candle's
rank error from `dims3`/`dims4`; `indexOutOfRange` is candle's narrow error;
`shapeMismatch` is candle's element-count error from `Tensor::from_vec`;
`resizeInvalidParams` and `resizeInsufficientData` are the `resize` crate's
`Error::InvalidParameters` and `Error::InsufficientData`;
`unsupportedChannels` is the `PyValueError` raised by the utilities for a
channel count outside `{3,4}`; `invalidDimensions` is the
`ImageBuffer::from_raw` failure. -/
inductive Err where
  | dimMismatch
  | indexOutOfRange
  | shapeMismatch
  | resizeInvalidParams
  | resizeInsufficientData
  | unsupportedChannels
  | invalidDimensions
deriving DecidableEq, Repr

/-- A candle tensor: a shape (list of axis extents) and a flat row-major
buffer of `f32` values, modelled as rationals. -/
structure CTensor where
  shape : List Nat
  data : List Rat
deriving DecidableEq, Repr

/-- `candle::Tensor::from_vec`: succeeds iff the buffer length equals the
element count of the shape. -/
def fromVec (data : List Rat) (shape : List Nat) : Except Err CTensor :=
  if data.length = shape.prod then .ok ⟨shape, data⟩ else .error .shapeMismatch

/-- `candle::Tensor::dims3`: the three extents of a rank-3 tensor. -/
def dims3 (t : CTensor) : Except Err (Nat × Nat × Nat) :=
  match t.shape with
  | [a, b, c] => .ok (a, b, c)
  | _ => .error .dimMismatch

/-- `candle::Tensor::dims4`: the four extents of a rank-4 tensor. -/
def dims4 (t : CTensor) : Except Err (Nat × Nat × Nat × Nat) :=
  match t.shape with
  | [a, b, c, d] => .ok (a, b, c, d)
  | _ => .error .dimMismatch

/-- `tensor.i(b)`: narrow the leading axis to index `b` and drop it.  In the
row-major layout element `b` occupies the `b`-th block of
`rest.prod` values. -/
def iIndex (t : CTensor) (b : Nat) : Except Err CTensor :=
  match t.shape with
  | [] => .error .dimMismatch
  | d :: rest =>
    if b < d then .ok ⟨rest, (t.data.drop (b * rest.prod)).take rest.prod⟩
    else .error .indexOutOfRange

/-- The numeric content of one interpolation filter of the `resize` crate:
given the source buffer, its pixel dimensions, the target dimensions and a
flat output index, produce the resampled value.  Quantifying over this
function quantifies over every kernel's arithmetic. -/
def Sampler : Type := List Rat → Nat → Nat → Nat → Nat → Nat → Rat

/-- The `Interpolation` enum of `image_resizer.rs` (maps one-to-one onto
`resize::Type`). -/
inductive Interpolation where
  | lanczos3
  | point
  | triangle
  | catrom
  | mitchell
  | bspline
  | gaussian
deriving DecidableEq, Repr

/-- `resize::new(src_w, src_h, dst_w, dst_h, format, type)`: the crate rejects
a zero source or destination dimension. -/
def resizeNew (sw sh dw dh : Nat) : Except Err Unit :=
  if sw = 0 ∨ sh = 0 ∨ dw = 0 ∨ dh = 0 then .error .resizeInvalidParams else .ok ()

/-- `ResizeImage::resize::<CHANNELS, Format>` (image_resizer.rs lines
172-212).  The flat input is reinterpreted as `input.len() / CHANNELS`
channel-interleaved pixels (the `unsafe` `from_raw_parts`, Nat division
matching Rust's truncating `usize` division); the output buffer is allocated
with `target_width * target_height * CHANNELS` floats and filled by the
resampler. -/
def ResizeImage.resize (CH : Nat) (sampler : Sampler) (input : List Rat)
    (origin_width origin_height target_width target_height : Nat) :
    Except Err (List Rat) :=
  match resizeNew origin_width origin_height target_width target_height with
  | .error e => .error e
  | .ok _ =>
    if input.length / CH < origin_width * origin_height then
      .error .resizeInsufficientData
    else
      .ok ((List.range (target_width * target_height * CH)).map
        (sampler input origin_width origin_height target_width target_height))

/-- One element of the rayon pipeline in `resize_parallel`:
`image.i(b)`, then `flatten_all().and_then(to_vec1)` (which on the narrowed
tensor always yields its buffer), then `self.resize`. -/
def ResizeImage.elementProcess (CH : Nat) (sampler : Sampler) (image : CTensor)
    (width height target_width target_height b : Nat) : Except Err (List Rat) :=
  match iIndex image b with
  | .error e => .error e
  | .ok slice =>
    ResizeImage.resize CH sampler slice.data width height target_width target_height

/-- The image-branch shape closure of `ResizeImage::execute` (line 107):
`|batch, width, height, channels| (batch, height, width, channels)`. -/
def imageShape (batch width height channels : Nat) : List Nat :=
  [batch, height, width, channels]

/-- The mask-branch shape closure of `ResizeImage::execute` (line 88):
`|batch, width, height, _| (batch, height, width)`. -/
def maskShape (batch width height _channels : Nat) : List Nat :=
  [batch, height, width]

/-- `ResizeImage::resize_parallel` (image_resizer.rs lines 121-170).  The
rayon chain `flat_map`s over `Result`s, so a failing element is dropped and
only the successful chunks are concatenated (in original batch-index order —
rayon's `collect` is order-preserving); the final tensor is built with
`get_shape(batch, target_height, target_width, CHANNELS)`. -/
def ResizeImage.resize_parallel (CH : Nat) (sampler : Sampler) (image : CTensor)
    (batch width height target_width target_height : Nat)
    (get_shape : Nat → Nat → Nat → Nat → List Nat) : Except Err CTensor :=
  let chunks := (List.range batch).filterMap
    (fun b =>
      (ResizeImage.elementProcess CH sampler image width height
        target_width target_height b).toOption)
  fromVec chunks.flatten (get_shape batch target_height target_width CH)

/-- The `Output` struct of the resize node. -/
structure ResizeImage.Output where
  image : CTensor
  mask : Option CTensor
  width : Nat
  height : Nat
deriving DecidableEq, Repr

/-- The mask branch of `ResizeImage::execute` (image_resizer.rs lines
76-94): an absent mask passes through, a present one is read with `dims3`
and resized with `CHANNELS = 1` / `GrayF32` and the rank-3 shape closure. -/
def ResizeImage.maskStep (kernel : Interpolation → Sampler) (width height : Nat)
    (interpolation : Interpolation) (mask : Option CTensor) :
    Except Err (Option CTensor) :=
  match mask with
  | some m =>
    match dims3 m with
    | .error e => .error e
    | .ok (batch, mask_height, mask_width) =>
      match ResizeImage.resize_parallel 1 (kernel interpolation) m batch
          mask_width mask_height width height maskShape with
      | .error e => .error e
      | .ok r => .ok (some r)
  | none => .ok none

/-- `ResizeImage::execute` (image_resizer.rs lines 75-117).  `width` and
`height` are the node's target dimensions; the mask (if present) is resized
first with `CHANNELS = 1` / `GrayF32`, then the image with the hard-coded
`CHANNELS = 3` / `RGBF32`, its own channel extent read by `dims4` being
discarded. -/
def ResizeImage.execute (kernel : Interpolation → Sampler) (width height : Nat)
    (interpolation : Interpolation) (image : CTensor) (mask : Option CTensor) :
    Except Err ResizeImage.Output :=
  match ResizeImage.maskStep kernel width height interpolation mask with
  | .error e => .error e
  | .ok maskOut =>
    match dims4 image with
    | .error e => .error e
    | .ok (batch, height0, width0, _) =>
      match ResizeImage.resize_parallel 3 (kernel interpolation) image batch
          width0 height0 width height imageShape with
      | .error e => .error e
      | .ok img => .ok ⟨img, maskOut, width, height⟩

/-- The strictly sequential reference for the batch loop: process batch
indices one after another, propagating the first error, and concatenate the
per-element buffers in index order. -/
def collectChunks (f : Nat → Except Err (List Rat)) :
    List Nat → Except Err (List (List Rat))
  | [] => .ok []
  | b :: bs =>
    match f b with
    | .error e => .error e
    | .ok c =>
      match collectChunks f bs with
      | .error e => .error e
      | .ok cs => .ok (c :: cs)

/-- Sequential batch resize: the loop `for b in 0..batch` run in order, its
per-element buffers concatenated in batch-index order. -/
def ResizeImage.seqResize (CH : Nat) (sampler : Sampler) (image : CTensor)
    (batch width height target_width target_height : Nat) :
    Except Err (List Rat) :=
  (collectChunks
      (ResizeImage.elementProcess CH sampler image width height
        target_width target_height)
      (List.range batch)).map List.flatten

/-- A sampler whose values are all zero; stands in for a concrete kernel when
only shapes and errors matter. -/
def zeroSampler : Sampler := fun _ _ _ _ _ _ => 0

/-- A kernel family assigning `zeroSampler` to every interpolation choice. -/
def zeroKernel : Interpolation → Sampler := fun _ => zeroSampler

/-! ## TensorCodec: `src/utilities.rs` -/

/-- `f32::clamp(lo, hi)`: `if x < lo { lo } else if x > hi { hi } else { x }`
(NaN is outside the rational model). -/
def clampQ (x lo hi : Rat) : Rat :=
  if x < lo then lo else if hi < x then hi else x

/-- `f32::round`: rounds half away from zero. -/
def rustRound (x : Rat) : Int :=
  if 0 ≤ x then ⌊x + 1 / 2⌋ else -⌊-x + 1 / 2⌋

/-- Rust's `as u8` cast on a rounded float: saturates into `[0, 255]`. -/
def satU8 (n : Int) : Nat := (max 0 (min n 255)).toNat

/-- The per-value pixel mapping of `tensor_to_image` (utilities.rs line 22 and
image_to_base64.rs line 103): `(value.clamp(0.0, 1.0) * 255.0).round() as u8`. -/
def pixelByte (v : Rat) : Nat := satU8 (rustRound (clampQ v 0 1 * 255))

/-- A decoded 8-bit bitmap (`image::DynamicImage` seen as raw bytes). -/
structure DynImage where
  width : Nat
  height : Nat
  channels : Nat
  pixels : List Nat
deriving DecidableEq, Repr

/-- `tensor_to_image` (utilities.rs lines 8-34; the copy in
image_to_base64.rs lines 89-117 is the same function).  The tensor buffer is
flattened, the channel count must be 3 or 4, every float is mapped through
`pixelByte`, and `ImageBuffer::from_raw` rejects a byte buffer smaller than
`width * height * channels`. -/
def tensor_to_image (t : CTensor) (width height channels : Nat) :
    Except Err DynImage :=
  let buffer := t.data
  if ¬(channels = 3 ∨ channels = 4) then .error .unsupportedChannels
  else
    let pixels := buffer.map pixelByte
    if pixels.length < width * height * channels then .error .invalidDimensions
    else .ok ⟨width, height, channels, pixels⟩

/-- A decoded bitmap as handed to `image_to_tensor`: its dimensions and the
channel count reported by `image.color().channel_count()`. -/
structure Bitmap where
  width : Nat
  height : Nat
  channels : Nat
deriving DecidableEq, Repr

/-- `image_to_tensor` (utilities.rs lines 36-52).  `to_rgb32f` / `to_rgba32f`
are the image crate's native colour conversions: they always yield a
`width * height * 3` (resp. `* 4`) float buffer whose numeric values are the
crate's business, abstracted here as the indexed families `conv3` / `conv4`.
A channel count outside `{3,4}` raises the `PyValueError`; otherwise the
tensor is built by `Tensor::from_vec(pixels, (1, height, width, channels))`. -/
def image_to_tensor (conv3 conv4 : Nat → Rat) (img : Bitmap) :
    Except Err CTensor :=
  let width := img.width
  let height := img.height
  let channels := img.channels
  if channels = 3 then
    fromVec ((List.range (width * height * 3)).map conv3)
      [1, height, width, channels]
  else if channels = 4 then
    fromVec ((List.range (width * height * 4)).map conv4)
      [1, height, width, channels]
  else .error .unsupportedChannels

/-- An all-zero colour conversion, used to instantiate witnesses. -/
def zeroConv : Nat → Rat := fun _ => 0

/-! ## Base64 node: `src/nodes/base64_to_image.rs` -/

/-- `strip_data_url_prefix` (base64_to_image.rs lines 52-58), on the string's
character list: `data.find(',')` locates the first comma and the slice
`&data[comma + 1..]` keeps everything after it; with no comma the whole
string is returned.  The search part: `none` when there is no comma, else
`some` of the suffix after the first comma. -/
def firstCommaSuffix : List Char → Option (List Char)
  | [] => none
  | c :: cs => if c = ',' then some cs else firstCommaSuffix cs

/-- The stripping rule itself (the function is named
`strip_data_url_prefix` in the source). -/
def strip_data_url (data : List Char) : List Char :=
  (firstCommaSuffix data).getD data

/-! ## JSON pointer node: `src/nodes/json_path_extractor.rs` -/

/-- `serde_json::Value`.  Numbers are modelled as integers; no claim depends
on number formatting. -/
inductive JValue where
  | null
  | bool (b : Bool)
  | num (n : Int)
  | str (s : List Char)
  | arr (items : List JValue)
  | obj (fields : List (List Char × JValue))

/-- `str.split(sep)`: split a character list on a separator, keeping empty
segments (ex: splitting `"a//b"` on `/` gives `["a", "", "b"]`). -/
def splitChar (sep : Char) : List Char → List (List Char)
  | [] => [[]]
  | c :: cs =>
    let r := splitChar sep cs
    if c = sep then [] :: r
    else
      match r with
      | [] => [[c]]
      | t :: ts => (c :: t) :: ts

/-- `String::replace` of the two-character pattern `[a, b]` by the single
character `rep`, left to right, non-overlapping. -/
def replaceSeq (a b rep : Char) : List Char → List Char
  | [] => []
  | [c] => [c]
  | c :: d :: rest =>
    if c = a ∧ d = b then rep :: replaceSeq a b rep rest
    else c :: replaceSeq a b rep (d :: rest)

/-- serde_json's pointer token unescaping:
`token.replace("~1", "/").replace("~0", "~")`. -/
def unescapeToken (t : List Char) : List Char :=
  replaceSeq '~' '0' '~' (replaceSeq '~' '1' '/' t)

/-- `str::parse::<usize>` on a digit string: `none` on an empty string or a
non-digit character. -/
def parseNat (s : List Char) : Option Nat :=
  if s = [] then none
  else
    s.foldl
      (fun acc c =>
        acc.bind fun n =>
          if c.isDigit then some (n * 10 + (c.toNat - 48)) else none)
      (some 0)

/-- serde_json's `parse_index`: rejects a leading `+` and leading zeros. -/
def parseIndex (s : List Char) : Option Nat :=
  match s with
  | [] => none
  | c :: rest =>
    if c = '+' ∨ (c = '0' ∧ rest ≠ []) then none else parseNat (c :: rest)

/-- The `try_fold` of `serde_json::Value::pointer`: descend through the
(already split) reference tokens, unescaping each; an object looks its token
up by key, an array parses the token as an index, anything else fails. -/
def pointerLoop : JValue → List (List Char) → Option JValue
  | v, [] => some v
  | v, t :: ts =>
    match v with
    | .obj fields =>
      match (fields.find? (fun f => f.1 == unescapeToken t)).map (·.2) with
      | some v' => pointerLoop v' ts
      | none => none
    | .arr items =>
      match (parseIndex (unescapeToken t)).bind (fun i => items.get? i) with
      | some v' => pointerLoop v' ts
      | none => none
    | _ => none

/-- `serde_json::Value::pointer`: the empty pointer resolves to the value
itself, a pointer not starting with `/` resolves to nothing, otherwise the
remainder is split on `/` and walked. -/
def pointer (v : JValue) (p : List Char) : Option JValue :=
  match p with
  | [] => some v
  | c :: rest => if c = '/' then pointerLoop v (splitChar '/' rest) else none

/-- `JsonPathExtractor::execute` (json_path_extractor.rs lines 32-44), after
the `serde_json::from_str` parse has succeeded (the claim is scoped to
parseable documents, so the parsed `Value` is the input here).  A `Null` or
unresolved pointer becomes `None`, a string is taken as is, any other value
is rendered by serde's `to_string` (abstracted as `render`), and
`unwrap_or_default` turns `None` into the empty string.  After a successful
parse the node cannot fail, hence the unconditional `.ok`. -/
def JsonPathExtractor.execute (render : JValue → List Char) (v : JValue)
    (path : List Char) : Except Err (List Char) :=
  .ok
    (match pointer v path with
     | none => []
     | some .null => []
     | some (.str s) => s
     | some other => render other)

/-! ## Helper lemmas -/

theorem fromVec_ok {data : List Rat} {s : List Nat} {t : CTensor}
    (h : fromVec data s = .ok t) : t.shape = s ∧ t.data = data := by
  unfold fromVec at h
  split at h
  · cases h; exact ⟨rfl, rfl⟩
  · cases h

theorem fromVec_err {data : List Rat} {s : List Nat}
    (h : data.length ≠ s.prod) : fromVec data s = .error .shapeMismatch := by
  unfold fromVec
  rw [if_neg h]

theorem resize_ok_length {CH : Nat} {s : Sampler} {input : List Rat}
    {ow oh tw th : Nat} {c : List Rat}
    (h : ResizeImage.resize CH s input ow oh tw th = .ok c) :
    c.length = tw * th * CH := by
  unfold ResizeImage.resize at h
  split at h
  · cases h
  · split at h
    · cases h
    · cases h; simp

theorem elementProcess_ok_length {CH : Nat} {s : Sampler} {image : CTensor}
    {w h tw th b : Nat} {c : List Rat}
    (hyp : ResizeImage.elementProcess CH s image w h tw th b = .ok c) :
    c.length = tw * th * CH := by
  unfold ResizeImage.elementProcess at hyp
  split at hyp
  · cases hyp
  · exact resize_ok_length hyp

theorem flatten_length_const {α : Type} (N : Nat) :
    ∀ ls : List (List α), (∀ l ∈ ls, l.length = N) →
      ls.flatten.length = ls.length * N := by
  intro ls h
  induction ls with
  | nil => simp
  | cons a t ih =>
    have ha : a.length = N := h a (List.mem_cons_self a t)
    have ht := ih fun l hl => h l (List.mem_cons_of_mem a hl)
    simp only [List.flatten_cons, List.length_append, List.length_cons, ha, ht]
    ring

theorem length_filterMap_lt {α β : Type} (f : α → Option β) :
    ∀ xs : List α, (∃ a ∈ xs, f a = none) →
      (xs.filterMap f).length < xs.length := by
  intro xs hex
  induction xs with
  | nil => simp at hex
  | cons a t ih =>
    rcases hex with ⟨x, hx, hfx⟩
    rcases List.mem_cons.mp hx with h | h
    · subst h
      rw [List.filterMap_cons, hfx]
      have := List.length_filterMap_le f t
      simp only [List.length_cons]
      omega
    · cases hfa : f a with
      | none =>
        rw [List.filterMap_cons, hfa]
        have := List.length_filterMap_le f t
        simp only [List.length_cons]
        omega
      | some b =>
        rw [List.filterMap_cons, hfa]
        have := ih ⟨x, h, hfx⟩
        simp only [List.length_cons]
        omega

theorem collectChunks_ok {f : Nat → Except Err (List Rat)} :
    ∀ {xs : List Nat} {ys : List (List Rat)},
      collectChunks f xs = .ok ys →
      xs.filterMap (fun a => (f a).toOption) = ys ∧
        ys.length = xs.length ∧ ∀ c ∈ ys, ∃ a ∈ xs, f a = .ok c := by
  intro xs
  induction xs with
  | nil =>
    intro ys hc
    unfold collectChunks at hc
    cases hc
    simp
  | cons a t ih =>
    intro ys hc
    unfold collectChunks at hc
    cases hfa : f a with
    | error e => rw [hfa] at hc; cases hc
    | ok c =>
      rw [hfa] at hc
      cases hct : collectChunks f t with
      | error e => rw [hct] at hc; cases hc
      | ok cs =>
        rw [hct] at hc
        cases hc
        obtain ⟨h1, h2, h3⟩ := ih hct
        refine ⟨?_, ?_, ?_⟩
        · rw [List.filterMap_cons, hfa]
          simpa [Except.toOption] using h1
        · simp [h2]
        · intro x hx
          rcases List.mem_cons.mp hx with h | h
          · exact ⟨a, List.mem_cons_self a t, h ▸ hfa⟩
          · obtain ⟨y, hy, hfy⟩ := h3 x h
            exact ⟨y, List.mem_cons_of_mem a hy, hfy⟩

theorem resize_parallel_ok_shape {CH : Nat} {s : Sampler} {image : CTensor}
    {batch w h tw th : Nat} {gs : Nat → Nat → Nat → Nat → List Nat} {t : CTensor}
    (hyp : ResizeImage.resize_parallel CH s image batch w h tw th gs = .ok t) :
    t.shape = gs batch th tw CH := by
  unfold ResizeImage.resize_parallel at hyp
  exact (fromVec_ok hyp).1

theorem resize_parallel_all_fail {CH : Nat} {s : Sampler} {image : CTensor}
    {batch w h tw th : Nat} {gs : Nat → Nat → Nat → Nat → List Nat}
    (hall : ∀ x ∈ List.range batch,
      (ResizeImage.elementProcess CH s image w h tw th x).toOption = none)
    (hprod : (gs batch th tw CH).prod ≠ 0) :
    ResizeImage.resize_parallel CH s image batch w h tw th gs =
      .error .shapeMismatch := by
  unfold ResizeImage.resize_parallel
  have hnil : (List.range batch).filterMap
      (fun b => (ResizeImage.elementProcess CH s image w h tw th b).toOption) = [] :=
    List.filterMap_eq_nil_iff.mpr hall
  rw [hnil]
  exact fromVec_err (by simpa using Ne.symm hprod)

theorem take_drop_block_length {α : Type} (data : List α) (s x b : Nat)
    (hx : x < b) (hlen : data.length = b * s) :
    ((data.drop (x * s)).take s).length = s := by
  have h2 : (x + 1) * s ≤ b * s := Nat.mul_le_mul_right s hx
  have h3 : (x + 1) * s = x * s + s := by ring
  simp only [List.length_take, List.length_drop, hlen]
  omega

theorem iIndex_rank4 {b H W C x : Nat} {data : List Rat} (hx : x < b)
    (hlen : data.length = b * (H * W * C)) :
    ∃ slice, iIndex ⟨[b, H, W, C], data⟩ x = .ok slice ∧
      slice.data.length = H * W * C := by
  have hp : ([H, W, C] : List Nat).prod = H * W * C := by
    simp [List.prod_cons]
    ring
  refine ⟨⟨[H, W, C], (data.drop (x * ([H, W, C] : List Nat).prod)).take
    ([H, W, C] : List Nat).prod⟩, ?_, ?_⟩
  · unfold iIndex
    simp [hx]
  · rw [hp]
    exact take_drop_block_length data (H * W * C) x b hx hlen

theorem resize_two_channel_error (s : Sampler) (input : List Rat)
    (W H tw th : Nat) (hlen : input.length = H * W * 2)
    (htw : 0 < tw) (hth : 0 < th) :
    ∃ e, ResizeImage.resize 3 s input W H tw th = .error e := by
  unfold ResizeImage.resize resizeNew
  have htw' : tw ≠ 0 := Nat.pos_iff_ne_zero.mp htw
  have hth' : th ≠ 0 := Nat.pos_iff_ne_zero.mp hth
  by_cases hW : W = 0
  · subst hW
    exact ⟨.resizeInvalidParams, by simp⟩
  by_cases hH : H = 0
  · subst hH
    exact ⟨.resizeInvalidParams, by simp⟩
  have hWH : 0 < W * H := Nat.mul_pos (Nat.pos_of_ne_zero hW) (Nat.pos_of_ne_zero hH)
  have hlt : input.length / 3 < W * H := by
    rw [hlen, Nat.div_lt_iff_lt_mul (by norm_num)]
    have hc : H * W = W * H := Nat.mul_comm H W
    have hc2 : H * W * 2 = (H * W) * 2 := rfl
    have hc3 : W * H * 3 = (W * H) * 3 := rfl
    omega
  refine ⟨.resizeInsufficientData, ?_⟩
  simp only [hW, hH, htw', hth', or_self, or_false, if_false, ite_false]
  rw [if_pos hlt]

theorem elementProcess_two_channel_none {s : Sampler} {b H W tw th x : Nat}
    {data : List Rat} (hx : x < b) (hlen : data.length = b * (H * W * 2))
    (htw : 0 < tw) (hth : 0 < th) :
    (ResizeImage.elementProcess 3 s ⟨[b, H, W, 2], data⟩ W H tw th x).toOption =
      none := by
  obtain ⟨slice, hsl, hlen'⟩ := iIndex_rank4 hx hlen
  unfold ResizeImage.elementProcess
  rw [hsl]
  show (ResizeImage.resize 3 s slice.data W H tw th).toOption = none
  obtain ⟨e, he⟩ := resize_two_channel_error s slice.data W H tw th hlen' htw hth
  rw [he]
  rfl

/-! ## The claims -/

/-- C1.  The spec claims `resize` returns a tensor of shape
`(batch, target_height, target_width, C)` with the input's channel count `C`
preserved.  The code instead builds the shape
`(batch, target_width, target_height, 3)`: at image_resizer.rs line 167,
`get_shape` is called as `get_shape(batch, target_height, target_width,
CHANNELS)` against the parameter order `(batch, width, height, channels)`,
and the closure at line 107 swaps its second and third arguments, so the
target width lands in the height slot and vice versa, while `CHANNELS` is
the hard-coded constant `3`.  Concretely: a `(1, 2, 3, 3)` image resized to
target width 4 and target height 5 comes back with shape `(1, 4, 5, 3)`,
not the claimed `(1, 5, 4, 3)`. -/
theorem c1_resize_output_shape_transposed :
    (ResizeImage.execute zeroKernel 4 5 .lanczos3
        ⟨[1, 2, 3, 3], List.replicate 18 0⟩ none).map (fun o => o.image.shape) =
      .ok [1, 4, 5, 3] ∧
    ¬((ResizeImage.execute zeroKernel 4 5 .lanczos3
        ⟨[1, 2, 3, 3], List.replicate 18 0⟩ none).map (fun o => o.image.shape) =
      .ok [1, 5, 4, 3]) := by
  constructor
  · rfl
  · intro h
    rw [show (ResizeImage.execute zeroKernel 4 5 .lanczos3
        ⟨[1, 2, 3, 3], List.replicate 18 0⟩ none).map (fun o => o.image.shape) =
      .ok [1, 4, 5, 3] from rfl] at h
    cases h

/-- C3.  The spec claims a zero target width or height makes `resize` fail
with a `ResizeError` and never return a tensor.  In the code each
per-element `resize::new` call does fail with `Error::InvalidParameters`,
but the rayon `flat_map` silently discards those failures, the concatenated
buffer is empty, and the empty buffer matches the zero-element target shape,
so `execute` returns `Ok` with an empty tensor: resizing a `(1, 1, 1, 3)`
image to target width 0 and height 2 yields the empty tensor of shape
`(1, 0, 2, 3)`. -/
theorem c3_zero_target_returns_tensor :
    ResizeImage.execute zeroKernel 0 2 .lanczos3 ⟨[1, 1, 1, 3], [0, 0, 0]⟩ none =
      .ok ⟨⟨[1, 0, 2, 3], []⟩, none, 0, 2⟩ := rfl

/-- C4 counterexample.  The claim says a failing batch element always makes
the overall call fail.  With target width 0 every element of a
`(2, 1, 1, 3)` batch fails (`resize::new` rejects the zero dimension), yet
the overall call succeeds with an empty output tensor, because the dropped
failures leave an empty buffer that matches the zero-element target shape. -/
theorem c4_failed_element_call_succeeds :
    ResizeImage.elementProcess 3 zeroSampler
        ⟨[2, 1, 1, 3], List.replicate 6 0⟩ 1 1 0 1 0 =
      .error .resizeInvalidParams ∧
    ResizeImage.execute zeroKernel 0 1 .lanczos3
        ⟨[2, 1, 1, 3], List.replicate 6 0⟩ none =
      .ok ⟨⟨[2, 0, 1, 3], []⟩, none, 0, 1⟩ :=
  ⟨rfl, rfl⟩

/-- For a rank-4 image and no mask, `execute` is definitionally the image
branch alone: the mask step passes through and `dims4` reads the literal
shape. -/
theorem execute_none_eq (kernel : Interpolation → Sampler) (width height : Nat)
    (interp : Interpolation) (b H W C : Nat) (data : List Rat) :
    ResizeImage.execute kernel width height interp ⟨[b, H, W, C], data⟩ none =
      match ResizeImage.resize_parallel 3 (kernel interp) ⟨[b, H, W, C], data⟩ b
          W H width height imageShape with
      | Except.error e => Except.error e
      | Except.ok img => Except.ok ⟨img, none, width, height⟩ := rfl

/-- C2 counterexample.  The claim says a rank-4 tensor with channel count 2
fails with `UnsupportedChannelsError`.  No channel validation exists on the
resize path: a `(1, 1, 3, 2)` image resized to `2×2` fails instead with the
final tensor-reconstruction shape error (the per-element resampler rejects
the reinterpreted buffer as `InsufficientData`, the failures are dropped,
and the empty buffer does not match the expected element count). -/
theorem c2_channels_two_error_not_unsupported :
    ResizeImage.execute zeroKernel 2 2 .point
        ⟨[1, 1, 3, 2], List.replicate 6 0⟩ none =
      .error .shapeMismatch ∧
    ¬(ResizeImage.execute zeroKernel 2 2 .point
        ⟨[1, 1, 3, 2], List.replicate 6 0⟩ none =
      .error .unsupportedChannels) := by
  refine ⟨rfl, fun h => ?_⟩
  rw [show ResizeImage.execute zeroKernel 2 2 .point
      ⟨[1, 1, 3, 2], List.replicate 6 0⟩ none = .error .shapeMismatch from rfl] at h
  cases h

/-- C2, amended.  A well-formed rank-4 image tensor with channel count 2, a
positive batch and positive target dimensions makes `execute` fail — but
with the tensor-reconstruction shape error, not with
`UnsupportedChannelsError`: every per-element resample fails (the flat
buffer reinterpreted as 3-float pixels holds fewer than `W*H` pixels, or a
zero source extent is rejected outright), the failures are dropped, and the
empty concatenated buffer cannot match the positive expected element
count. -/
theorem c2_amended_channels_two_fails (kernel : Interpolation → Sampler)
    (interp : Interpolation) (b H W tw th : Nat) (data : List Rat)
    (hb : 0 < b) (htw : 0 < tw) (hth : 0 < th)
    (hlen : data.length = b * (H * W * 2)) :
    ResizeImage.execute kernel tw th interp ⟨[b, H, W, 2], data⟩ none =
      .error .shapeMismatch := by
  have hrp : ResizeImage.resize_parallel 3 (kernel interp)
      ⟨[b, H, W, 2], data⟩ b W H tw th imageShape = .error .shapeMismatch := by
    apply resize_parallel_all_fail
    · intro x hxmem
      exact elementProcess_two_channel_none (List.mem_range.mp hxmem) hlen htw hth
    · have hprod : (imageShape b th tw 3).prod = b * (tw * (th * 3)) := by
        simp [imageShape, List.prod_cons]
      rw [hprod]
      have h3 : 0 < tw * (th * 3) := by positivity
      have := Nat.mul_pos hb h3
      omega
  rw [execute_none_eq, hrp]

/-- C2 witness: the amended theorem applied at a concrete 2-channel input. -/
theorem c2_amended_channels_two_fails_witness :
    ResizeImage.execute zeroKernel 1 1 .lanczos3
        ⟨[1, 1, 1, 2], [0, 0]⟩ none = .error .shapeMismatch :=
  c2_amended_channels_two_fails zeroKernel .lanczos3 1 1 1 1 1 [0, 0]
    (by decide) (by decide) (by decide) (by decide)

/-- C4, amended.  Provided the target width and height are positive (and the
pixel group size is nonzero), the failure of any single batch element does
force the overall `resize_parallel` call to fail — though with the final
tensor-reconstruction shape error rather than the element's own error: the
failing element is dropped, every surviving chunk holds exactly
`target_width * target_height * CHANNELS` values, so the concatenated
buffer is too short for the expected element count.  (With a zero target
dimension the call can succeed despite element failures, see the
counterexample.) -/
theorem c4_amended_element_failure_fails_call (CH : Nat) (s : Sampler)
    (image : CTensor) (batch w h tw th : Nat)
    (hCH : 0 < CH) (htw : 0 < tw) (hth : 0 < th)
    (hfail : ∃ x, x < batch ∧
      ∃ e, ResizeImage.elementProcess CH s image w h tw th x = .error e) :
    ResizeImage.resize_parallel CH s image batch w h tw th imageShape =
      .error .shapeMismatch := by
  unfold ResizeImage.resize_parallel
  have hN : 0 < tw * th * CH := by positivity
  have hlensome : ∀ c ∈ (List.range batch).filterMap
      (fun x => (ResizeImage.elementProcess CH s image w h tw th x).toOption),
      c.length = tw * th * CH := by
    intro c hc
    obtain ⟨a, _, hga⟩ := List.mem_filterMap.mp hc
    cases he : ResizeImage.elementProcess CH s image w h tw th a with
    | error e => rw [he] at hga; cases hga
    | ok cc =>
      rw [he] at hga
      cases hga
      exact elementProcess_ok_length he
  have hflat := flatten_length_const (tw * th * CH)
    ((List.range batch).filterMap
      (fun x => (ResizeImage.elementProcess CH s image w h tw th x).toOption))
    hlensome
  have hk : ((List.range batch).filterMap
      (fun x => (ResizeImage.elementProcess CH s image w h tw th x).toOption)).length
      < batch := by
    obtain ⟨x, hx, e, he⟩ := hfail
    have hmem : ∃ a ∈ List.range batch,
        (ResizeImage.elementProcess CH s image w h tw th a).toOption = none :=
      ⟨x, List.mem_range.mpr hx, by rw [he]; rfl⟩
    simpa using length_filterMap_lt _ (List.range batch) hmem
  apply fromVec_err
  rw [hflat]
  have hp : (imageShape batch th tw CH).prod = batch * (tw * th * CH) := by
    show ([batch, tw, th, CH] : List Nat).prod = _
    rw [List.prod_cons, List.prod_cons, List.prod_cons, List.prod_cons,
      List.prod_nil]
    ring
  rw [hp]
  have hlt := (Nat.mul_lt_mul_right hN).mpr hk
  omega

/-- C4 witness: the amended theorem applied at a concrete input whose
element 0 fails (the source width passed to the resampler is zero). -/
theorem c4_amended_element_failure_fails_call_witness :
    ResizeImage.resize_parallel 3 zeroSampler ⟨[1, 1, 1, 3], [0, 0, 0]⟩ 1 0 1 1 1
        imageShape = .error .shapeMismatch :=
  c4_amended_element_failure_fails_call 3 zeroSampler ⟨[1, 1, 1, 3], [0, 0, 0]⟩
    1 0 1 1 1 (by decide) (by decide) (by decide)
    ⟨0, by decide, .resizeInvalidParams, rfl⟩

/-- C5.  Whenever the strictly sequential loop over batch indices succeeds —
i.e. every per-element resample succeeds — the parallel fan-out returns a
tensor whose data buffer is exactly the sequential loop's buffer: the
concatenation, in original batch-index order, of the per-element resized
buffers.  (Order independence of task completion is rayon's documented
`collect` guarantee, reflected in the order-preserving embedding.) -/
theorem c5_parallel_matches_sequential (CH : Nat) (s : Sampler)
    (image : CTensor) (batch w h tw th : Nat) (buf : List Rat)
    (hseq : ResizeImage.seqResize CH s image batch w h tw th = .ok buf) :
    ResizeImage.resize_parallel CH s image batch w h tw th imageShape =
      .ok ⟨[batch, tw, th, CH], buf⟩ := by
  unfold ResizeImage.seqResize at hseq
  cases hc : collectChunks (ResizeImage.elementProcess CH s image w h tw th)
      (List.range batch) with
  | error e => rw [hc] at hseq; cases hseq
  | ok ys =>
    rw [hc] at hseq
    have hbuf : ys.flatten = buf := by
      simpa [Except.map] using hseq
    obtain ⟨h1, h2, h3⟩ := collectChunks_ok hc
    have hlens : ∀ c ∈ ys, c.length = tw * th * CH := by
      intro c hcm
      obtain ⟨a, _, hfa⟩ := h3 c hcm
      exact elementProcess_ok_length hfa
    have hflat : ys.flatten.length = batch * (tw * th * CH) := by
      rw [flatten_length_const _ ys hlens, h2]
      simp
    unfold ResizeImage.resize_parallel
    rw [h1]
    have hprod : ([batch, tw, th, CH] : List Nat).prod =
        batch * (tw * th * CH) := by
      rw [List.prod_cons, List.prod_cons, List.prod_cons, List.prod_cons,
        List.prod_nil]
      ring
    unfold fromVec
    rw [if_pos (by rw [hflat]; exact hprod.symm ▸ rfl)]
    rw [hbuf]
    rfl

/-- C5 witness: a concrete batch where the sequential loop succeeds and the
parallel result is its concatenated buffer. -/
theorem c5_parallel_matches_sequential_witness :
    ResizeImage.resize_parallel 3 zeroSampler ⟨[1, 1, 1, 3], [0, 0, 0]⟩ 1 1 1 1 1
        imageShape = .ok ⟨[1, 1, 1, 3], [0, 0, 0]⟩ :=
  c5_parallel_matches_sequential 3 zeroSampler ⟨[1, 1, 1, 3], [0, 0, 0]⟩
    1 1 1 1 1 [0, 0, 0] rfl

/-- C6.  The image branch of the resize engine is fixed to a 3-channel pixel
format: `dims4`'s channel extent is discarded and the output shape's channel
extent is the constant `3`, so every successfully returned image tensor has
shape `(batch, target_width, target_height, 3)` — channel extent exactly 3,
including for 4-channel RGBA inputs. -/
theorem c6_image_output_three_channels (kernel : Interpolation → Sampler)
    (interp : Interpolation) (tw th : Nat) (image : CTensor)
    (mask : Option CTensor) (out : ResizeImage.Output)
    (hok : ResizeImage.execute kernel tw th interp image mask = .ok out) :
    ∃ b, out.image.shape = [b, tw, th, 3] := by
  unfold ResizeImage.execute at hok
  cases hms : ResizeImage.maskStep kernel tw th interp mask with
  | error e => rw [hms] at hok; cases hok
  | ok mo =>
    rw [hms] at hok
    cases hd : dims4 image with
    | error e => rw [hd] at hok; cases hok
    | ok q =>
      obtain ⟨b0, h0, w0, c0⟩ := q
      rw [hd] at hok
      dsimp only at hok
      cases hrp : ResizeImage.resize_parallel 3 (kernel interp) image b0 w0 h0
          tw th imageShape with
      | error e => rw [hrp] at hok; cases hok
      | ok img =>
        rw [hrp] at hok
        cases hok
        exact ⟨b0, resize_parallel_ok_shape hrp⟩

/-- C6 witness: a 4-channel RGBA input that resizes successfully; the output
channel extent is 3. -/
theorem c6_image_output_three_channels_witness :
    ∃ b, (CTensor.mk [1, 1, 1, 3] [0, 0, 0]).shape = [b, 1, 1, 3] ∧
      ResizeImage.execute zeroKernel 1 1 .catrom
          ⟨[1, 1, 3, 4], List.replicate 12 0⟩ none =
        .ok ⟨⟨[1, 1, 1, 3], [0, 0, 0]⟩, none, 1, 1⟩ := by
  obtain ⟨b, hb⟩ := c6_image_output_three_channels zeroKernel .catrom 1 1
    ⟨[1, 1, 3, 4], List.replicate 12 0⟩ none
    ⟨⟨[1, 1, 1, 3], [0, 0, 0]⟩, none, 1, 1⟩ rfl
  exact ⟨b, hb, rfl⟩

/-- C7.  Every float value passed to the tensor-to-bitmap decode is clamped
to `[0,1]` before scaling to 8-bit: the decoded pixel bytes are exactly the
buffer mapped through `pixelByte`; an in-range value `v` maps to
`round(v * 255)` (half away from zero, no saturation needed); `-0.5` maps to
byte `0` and `1.5` to byte `255` — clamped, never wrapped. -/
theorem c7_decode_clamps_before_scaling (t : CTensor) (w h c : Nat)
    (out : DynImage) (v : Rat)
    (hok : tensor_to_image t w h c = .ok out) (h0 : 0 ≤ v) (h1 : v ≤ 1) :
    out.pixels = t.data.map pixelByte ∧
    (pixelByte v : Int) = rustRound (v * 255) ∧
    pixelByte (-(1 / 2)) = 0 ∧ pixelByte (3 / 2) = 255 := by
  refine ⟨?_, ?_, ?_, ?_⟩
  · unfold tensor_to_image at hok
    dsimp only at hok
    split at hok
    · cases hok
    · split at hok
      · cases hok
      · cases hok
        rfl
  · have hcl : clampQ v 0 1 = v := by
      unfold clampQ
      rw [if_neg (not_lt.mpr h0), if_neg (not_lt.mpr h1)]
    have h255 : (0 : Rat) ≤ v * 255 := by positivity
    have hfl0 : 0 ≤ ⌊v * 255 + 1 / 2⌋ := Int.floor_nonneg.mpr (by linarith)
    have hfl255 : ⌊v * 255 + 1 / 2⌋ ≤ 255 := by
      have hlt : v * 255 + 1 / 2 < ((256 : Int) : Rat) := by
        push_cast
        nlinarith
      have := Int.floor_lt.mpr hlt
      omega
    unfold pixelByte satU8 rustRound
    rw [hcl, if_pos h255, min_eq_left hfl255, max_eq_right hfl0]
    exact Int.toNat_of_nonneg hfl0
  · norm_num [pixelByte, clampQ, rustRound, satU8] <;> decide
  · norm_num [pixelByte, clampQ, rustRound, satU8] <;> decide

/-- C7 witness: the theorem applied to the decode of the concrete buffer
`[-1/2, 3/2, 1/2]`, whose bytes come out as `[0, 255, 128]`. -/
theorem c7_decode_clamps_before_scaling_witness :
    (DynImage.mk 1 1 3 [0, 255, 128]).pixels =
      (CTensor.mk [1, 1, 1, 3] [-(1 / 2), 3 / 2, 1 / 2]).data.map pixelByte ∧
    (pixelByte (1 / 2) : Int) = rustRound ((1 / 2 : Rat) * 255) ∧
    pixelByte (-(1 / 2)) = 0 ∧ pixelByte (3 / 2) = 255 :=
  c7_decode_clamps_before_scaling
    ⟨[1, 1, 1, 3], [-(1 / 2), 3 / 2, 1 / 2]⟩ 1 1 3
    ⟨1, 1, 3, [0, 255, 128]⟩ (1 / 2)
    (by
      unfold tensor_to_image
      norm_num [pixelByte, clampQ, rustRound, satU8] <;> decide)
    (by norm_num) (by norm_num)

/-- C8.  The bitmap-to-tensor encode succeeds exactly when the bitmap's
channel count is 3 or 4 — failing with the unsupported-channels error
otherwise — and on success the tensor's shape is
`(1, height, width, channels)`: the batch extent is always 1. -/
theorem c8_encode_channels_iff (conv3 conv4 : Nat → Rat) (img : Bitmap) :
    ((img.channels = 3 ∨ img.channels = 4) →
      ∃ t, image_to_tensor conv3 conv4 img = .ok t ∧
        t.shape = [1, img.height, img.width, img.channels]) ∧
    (¬(img.channels = 3 ∨ img.channels = 4) →
      image_to_tensor conv3 conv4 img = .error .unsupportedChannels) := by
  constructor
  · rintro (h3 | h4)
    · refine ⟨⟨[1, img.height, img.width, img.channels],
        (List.range (img.width * img.height * 3)).map conv3⟩, ?_, rfl⟩
      unfold image_to_tensor
      rw [if_pos h3]
      unfold fromVec
      rw [if_pos (by
        rw [h3]
        simp only [List.length_map, List.length_range, List.prod_cons,
          List.prod_nil]
        ring_nf)]
    · refine ⟨⟨[1, img.height, img.width, img.channels],
        (List.range (img.width * img.height * 4)).map conv4⟩, ?_, rfl⟩
      unfold image_to_tensor
      rw [if_neg (by rw [h4]; decide), if_pos h4]
      unfold fromVec
      rw [if_pos (by
        rw [h4]
        simp only [List.length_map, List.length_range, List.prod_cons,
          List.prod_nil]
        ring_nf)]
  · intro hnot
    push_neg at hnot
    unfold image_to_tensor
    rw [if_neg hnot.1, if_neg hnot.2]

/-- C8 witness: the theorem applied to concrete 3-channel and 2-channel
bitmaps — the first encodes to a batch-1 tensor, the second is rejected. -/
theorem c8_encode_channels_iff_witness :
    (∃ t, image_to_tensor zeroConv zeroConv ⟨5, 7, 3⟩ = .ok t ∧
      t.shape = [1, 7, 5, 3]) ∧
    image_to_tensor zeroConv zeroConv ⟨5, 7, 2⟩ = .error .unsupportedChannels :=
  ⟨(c8_encode_channels_iff zeroConv zeroConv ⟨5, 7, 3⟩).1 (Or.inl rfl),
   (c8_encode_channels_iff zeroConv zeroConv ⟨5, 7, 2⟩).2 (by decide)⟩

theorem firstCommaSuffix_append (post : List Char) :
    ∀ pre : List Char, (',' : Char) ∉ pre →
      firstCommaSuffix (pre ++ ',' :: post) = some post := by
  intro pre
  induction pre with
  | nil => intro _; rfl
  | cons c cs ih =>
    intro h
    have hc : ¬(c = ',') := fun h' => h (by rw [h']; exact List.mem_cons_self ',' cs)
    have hm : (',' : Char) ∉ cs := fun hmem => h (List.mem_cons_of_mem c hmem)
    show firstCommaSuffix (c :: (cs ++ ',' :: post)) = some post
    unfold firstCommaSuffix
    rw [if_neg hc]
    exact ih hm

theorem firstCommaSuffix_none :
    ∀ s : List Char, (',' : Char) ∉ s → firstCommaSuffix s = none := by
  intro s
  induction s with
  | nil => intro _; rfl
  | cons c cs ih =>
    intro h
    have hc : ¬(c = ',') := fun h' => h (by rw [h']; exact List.mem_cons_self ',' cs)
    have hm : (',' : Char) ∉ cs := fun hmem => h (List.mem_cons_of_mem c hmem)
    unfold firstCommaSuffix
    rw [if_neg hc]
    exact ih hm

/-- C9.  The base64 stripping rule: a string containing a comma loses
everything up to and including its first comma (writing the string as a
comma-free part, the first comma, and the rest), and a string with no comma
is passed through unchanged. -/
theorem c9_strip_first_comma (pre post s : List Char)
    (h1 : (',' : Char) ∉ pre) (h2 : (',' : Char) ∉ s) :
    strip_data_url (pre ++ ',' :: post) = post ∧ strip_data_url s = s := by
  constructor
  · unfold strip_data_url
    rw [firstCommaSuffix_append post pre h1]
    rfl
  · unfold strip_data_url
    rw [firstCommaSuffix_none s h2]
    rfl

/-- C9 witness: the theorem applied to a concrete data-URL-style header and
a concrete comma-free string. -/
theorem c9_strip_first_comma_witness :
    strip_data_url (['d', 'a', 't', 'a', ':'] ++ ',' :: ['Q', 'Q']) =
      ['Q', 'Q'] ∧
    strip_data_url ['R', 'a', 'W'] = ['R', 'a', 'W'] :=
  c9_strip_first_comma ['d', 'a', 't', 'a', ':'] ['Q', 'Q'] ['R', 'a', 'W']
    (by decide) (by decide)

/-- C10.  For a parseable JSON document, when the RFC6901 pointer does not
resolve to a value, or resolves to JSON null, the extractor returns the
empty string — as a successful result, never an error. -/
theorem c10_null_or_unresolved_empty (render : JValue → List Char)
    (v : JValue) (path : List Char)
    (h : pointer v path = none ∨ pointer v path = some .null) :
    JsonPathExtractor.execute render v path = .ok [] := by
  unfold JsonPathExtractor.execute
  rcases h with h | h <;> rw [h]

/-- C10 witness: the theorem applied to a document whose pointer target is
null, and (separately instantiable) one where it is missing. -/
theorem c10_null_or_unresolved_empty_witness :
    JsonPathExtractor.execute (fun _ => []) (.obj [(['a'], .null)])
        ['/', 'a'] = .ok [] ∧
    JsonPathExtractor.execute (fun _ => []) (.obj [(['a'], .null)])
        ['/', 'b'] = .ok [] :=
  ⟨c10_null_or_unresolved_empty (fun _ => []) (.obj [(['a'], .null)])
      ['/', 'a'] (Or.inr rfl),
   c10_null_or_unresolved_empty (fun _ => []) (.obj [(['a'], .null)])
      ['/', 'b'] (Or.inl rfl)⟩
